import Mathlib

/-!
Shallow embedding of the Dish Delight server (src/index.js): the
authentication handlers, the ownership guard, and the item/product CRUD
handlers, together with theorems checking the specification claims.

Conventions of the embedding:
* MongoDB collections are Lean lists; findOne / insertOne / updateOne /
  deleteOne act on the first matching element, insertion appends.
* JavaScript runtime values appearing in request bodies and stored item
  fields are modelled by the inductive JsValue; JS truthiness is the
  function truthy.  NaN is represented by Option.none at conversion sites.
* Dates are model timestamps (Nat); Date.prototype.toISOString is modelled
  by the injective encoding dateToISOString.
* bcrypt and jsonwebtoken are external libraries: bcrypt is modelled by an
  injective hash encoding, and a token is modelled by its signed claims.
* Each res.status(s).json(...) exit of a handler becomes an HResult value
  carrying the literal status code and message of the source.
-/

/-- A JavaScript JSON-ish runtime value, as found in request bodies and in
stored documents.  NaN is not a constructor: conversions that may produce
NaN return an Option, with none standing for NaN. -/
inductive JsValue where
  | undefined
  | null
  | boolean (b : Bool)
  | num (q : ℚ)
  | str (s : String)
deriving DecidableEq

/-- JavaScript truthiness of a JsValue (used by the source in tests such as
`if (!name)` and in defaults such as `body.image || DEFAULT`). -/
def truthy : JsValue → Bool
  | .undefined => false
  | .null => false
  | .boolean b => b
  | .num q => q != 0
  | .str s => s != ""

/-- Lowercasing character by character; models String.prototype.toLowerCase
for the ASCII identifiers and emails the server handles. -/
def lowerStr (s : String) : String := String.mk (s.data.map Char.toLower)

/-- Models the JS string-or-undefined idiom `x || d`: the default is taken
when the value is absent or an empty (falsy) string. -/
def orDefaultStr (v : Option String) (d : String) : String :=
  match v with
  | none => d
  | some s => if s = "" then d else s

/-- Models Date.prototype.toISOString as an injective rendering of the
model timestamp. -/
def dateToISOString (t : Nat) : String := "date-" ++ toString t

/-- Whitespace trimming on both ends, models String.prototype.trim as used
by ECMAScript ToNumber on string arguments. -/
def trimChars (cs : List Char) : List Char :=
  ((cs.dropWhile Char.isWhitespace).reverse.dropWhile Char.isWhitespace).reverse

/-- Value of a list of decimal digit characters. -/
def digitsToNat (cs : List Char) : Nat :=
  cs.foldl (fun a c => a * 10 + (c.toNat - 48)) 0

/-- All characters are decimal digits. -/
def allDigits (cs : List Char) : Bool := cs.all Char.isDigit

/-- Parses an unsigned decimal literal (digits with an optional single
decimal point), the fragment of ECMAScript numeric string grammar this
development needs; other forms (exponents, hex, Infinity) yield none. -/
def parseUnsignedDecimal (cs : List Char) : Option ℚ :=
  let intPart := cs.takeWhile (fun c => c ≠ '.')
  match cs.dropWhile (fun c => c ≠ '.') with
  | [] =>
    if intPart ≠ [] ∧ allDigits intPart then some (digitsToNat intPart : ℚ) else none
  | _ :: frac =>
    if frac.contains '.' then none
    else if intPart = [] ∧ frac = [] then none
    else if allDigits intPart ∧ allDigits frac then
      some ((digitsToNat intPart : ℚ) + (digitsToNat frac : ℚ) / ((10 : ℚ) ^ frac.length))
    else none

/-- Models ECMAScript StringToNumber on the decimal fragment: trimmed empty
string is 0, an optional sign precedes an unsigned decimal literal. -/
def jsStringToNumber (s : String) : Option ℚ :=
  match trimChars s.data with
  | [] => some 0
  | '-' :: rest => (parseUnsignedDecimal rest).map (fun q => -q)
  | '+' :: rest => parseUnsignedDecimal rest
  | cs => parseUnsignedDecimal cs

/-- Models the JS Number(value) conversion; none stands for NaN. -/
def jsToNumber : JsValue → Option ℚ
  | .undefined => none
  | .null => some 0
  | .boolean b => some (if b then 1 else 0)
  | .num q => some q
  | .str s => jsStringToNumber s

/-- validatePriceValue (src/index.js line 129): Number(value), rejecting
NaN and negatives; some parsed plays the role of valid: true. -/
def validatePriceValue (value : JsValue) : Option ℚ :=
  match jsToNumber value with
  | none => none
  | some parsed => if parsed < 0 then none else some parsed

/-- A stored user document (the users collection). The password field is
absent (none) for accounts created through the OAuth upsert. -/
structure User where
  _id : String
  name : String
  email : String
  password : Option String
  role : Option String
  provider : Option String
  createdAt : Nat
  updatedAt : Nat
deriving DecidableEq

/-- sanitizeUser output shape (src/index.js line 66). -/
structure PublicUser where
  id : String
  name : String
  email : String
  role : String
deriving DecidableEq

/-- sanitizeUser (src/index.js line 66): the response never carries the
password hash; a missing role falls back to "user". -/
def sanitizeUser (u : User) : PublicUser :=
  { id := u._id, name := u.name, email := u.email, role := orDefaultStr u.role "user" }

/-- The payload jwt.sign embeds in a token (src/index.js line 73); signing
and expiry belong to the external jsonwebtoken library, so a token is
modelled by its claims. -/
structure TokenClaims where
  sub : String
  email : String
  role : String
deriving DecidableEq

/-- buildToken (src/index.js line 73). -/
def buildToken (u : User) : TokenClaims :=
  { sub := u._id, email := u.email, role := orDefaultStr u.role "user" }

/-- Models bcrypt.hash with its fixed cost of 10 rounds as an injective
encoding of the plaintext. -/
def bcryptHash (plain : String) : String := "$2b$10$" ++ plain

/-- Models bcrypt.compare: true exactly when the hash is the bcrypt hash of
the plaintext; an empty or malformed hash compares false rather than
raising, which is what lets OAuth-only accounts fail credential login. -/
def bcryptCompare (plain hash : String) : Bool := hash == bcryptHash plain

/-- usersCollection.findOne({email}): first user whose stored email equals
the given one. -/
def findUserByEmail (db : List User) (e : String) : Option User :=
  db.find? (fun u => u.email == e)

/-- Applies an update function to the first user matching the email, as a
single updateOne / findOneAndUpdate against the users collection. -/
def updateUserByEmail (db : List User) (e : String) (f : User → User) : List User :=
  match db with
  | [] => []
  | u :: rest => if u.email == e then f u :: rest else u :: updateUserByEmail rest e f

/-- One res.status(s).json(...) exit of a handler: either an error with the
literal status and message of the source, or a success payload. -/
inductive HResult (α : Type) where
  | err (status : Nat) (message : String)
  | ok (status : Nat) (value : α)
deriving DecidableEq

/-- POST /auth/register (src/index.js line 313).  The generated Mongo _id
and the current time are explicit parameters.  The ok payload is the full
inserted user record; the HTTP layer responds with sanitizeUser and
buildToken applied to it. -/
def register (db : List User) (name email password : String) (now : Nat)
    (newId : String) : List User × HResult User :=
  if name = "" ∨ email = "" ∨ password = "" then
    (db, .err 400 "Name, email, and password are required")
  else
    match findUserByEmail db (lowerStr email) with
    | some _ => (db, .err 409 "Email is already registered")
    | none =>
      let newUser : User :=
        { _id := newId, name := name, email := lowerStr email,
          password := some (bcryptHash password), role := some "user",
          provider := some "credentials", createdAt := now, updatedAt := now }
      (db ++ [newUser], .ok 201 newUser)

/-- POST /auth/login (src/index.js line 348).  The ok payload is the full
user record; the HTTP layer responds with sanitizeUser and buildToken. -/
def login (db : List User) (email password : String) : HResult User :=
  if email = "" ∨ password = "" then
    .err 400 "Email and password are required"
  else
    match findUserByEmail db (lowerStr email) with
    | none => .err 401 "Invalid email or password"
    | some user =>
      if bcryptCompare password (orDefaultStr user.password "") then
        .ok 200 user
      else
        .err 401 "Invalid email or password"

/-- The $set document of the OAuth upsert applied to an existing user:
name, normalized email, provider (defaulting to google), role and
updatedAt are rewritten; everything else, createdAt included, stays. -/
def oauthApplyUser (name e : String) (provider : Option String) (now : Nat)
    (u : User) : User :=
  { u with name := name, email := e,
           provider := some (orDefaultStr provider "google"),
           role := some "user", updatedAt := now }

/-- The document the OAuth upsert inserts when no user matches: the $set
fields plus the $setOnInsert createdAt; no password. -/
def oauthInsertUser (name e : String) (provider : Option String) (now : Nat)
    (newId : String) : User :=
  { _id := newId, name := name, email := e, password := none,
    role := some "user", provider := some (orDefaultStr provider "google"),
    createdAt := now, updatedAt := now }

/-- POST /auth/oauth (src/index.js line 372): internal-key guard, required
fields, then an atomic findOneAndUpdate upsert keyed by the normalized
email, setting name / email / provider / role / updatedAt and setting
createdAt only on insert.  The ok payload is the resulting stored user. -/
def oauthSync (db : List User) (internalKey apiKey : String) (email name : String)
    (provider : Option String) (now : Nat) (newId : String) :
    List User × HResult User :=
  if internalKey ≠ apiKey then
    (db, .err 401 "Unauthorized request")
  else if email = "" ∨ name = "" then
    (db, .err 400 "Email and name are required")
  else
    match findUserByEmail db (lowerStr email) with
    | some _ =>
      match findUserByEmail (updateUserByEmail db (lowerStr email)
          (oauthApplyUser name (lowerStr email) provider now)) (lowerStr email) with
      | some u2 =>
        (updateUserByEmail db (lowerStr email)
          (oauthApplyUser name (lowerStr email) provider now), .ok 200 u2)
      | none =>
        (updateUserByEmail db (lowerStr email)
          (oauthApplyUser name (lowerStr email) provider now),
         .err 500 "Failed to retrieve user after sync")
    | none =>
      (db ++ [oauthInsertUser name (lowerStr email) provider now newId],
       .ok 200 (oauthInsertUser name (lowerStr email) provider now newId))

/-- Whether the needle list opens the haystack list (character-wise). -/
def leadsWith : List Char → List Char → Bool
  | [], _ => true
  | _ :: _, [] => false
  | p :: ps, c :: cs => p == c && leadsWith ps cs

/-- Whether the needle occurs as a contiguous run inside the haystack. -/
def listContains (hay nee : List Char) : Bool :=
  match hay with
  | [] => leadsWith nee []
  | _ :: cs => leadsWith nee hay || listContains cs nee

/-- Removes the first occurrence of the pattern from the list, leaving the
list unchanged when the pattern does not occur: the semantics of the JS
String.prototype.replace(pattern, "") with a string pattern, which
replaces only the first occurrence. -/
def removeFirstOcc (pat : List Char) : List Char → List Char
  | [] => []
  | c :: cs => if leadsWith pat (c :: cs) then (c :: cs).drop pat.length
               else c :: removeFirstOcc pat cs

/-- Token extraction of authGuard (src/index.js line 86):
authHeader.replace("Bearer ", ""). -/
def extractBearerToken (authHeader : String) : String :=
  String.mk (removeFirstOcc "Bearer ".data authHeader.data)

/-- Outcome of the bearer-token guard. -/
inductive AuthOutcome where
  | missingToken
  | invalidToken
  | ok (claims : TokenClaims)
deriving DecidableEq

/-- authGuard (src/index.js line 84).  jwt.verify belongs to the external
jsonwebtoken library and is passed in as the verification function; a
missing Authorization header reads as the empty string. -/
def authGuard (verify : String → Option TokenClaims) (authHeader : Option String) :
    AuthOutcome :=
  let h := match authHeader with | none => "" | some s => s
  let token := extractBearerToken h
  if token = "" then .missingToken
  else
    match verify token with
    | some decoded => .ok decoded
    | none => .invalidToken

/-- Hexadecimal digit test, for ObjectId validity. -/
def isHexDigit (c : Char) : Bool :=
  c.isDigit || ('a' ≤ c && c ≤ 'f') || ('A' ≤ c && c ≤ 'F')

/-- Models the MongoDB driver ObjectId.isValid on strings: a 12-character
string or a 24-character hexadecimal string. -/
def objectIdIsValid (s : String) : Bool :=
  s.data.length == 12 || (s.data.length == 24 && s.data.all isHexDigit)

/-- DEFAULT_ITEM_IMAGE (src/index.js line 99). -/
def DEFAULT_ITEM_IMAGE : String :=
  "https://images.unsplash.com/photo-1504674900247-0877df9cc836?auto=format&fit=crop&w=800&q=80"

/-- A stored item document of the food_items collection.  Content fields
hold whatever JSON value the creating request supplied, hence JsValue;
price is stored as the parsed number by this code but legacy documents may
hold anything, so it is JsValue too. -/
structure Item where
  _id : String
  name : JsValue
  summary : JsValue
  description : JsValue
  image : JsValue
  category : JsValue
  price : JsValue
  priority : JsValue
  availableDate : JsValue
  ownerId : JsValue
  ownerEmail : JsValue
  userId : JsValue
  createdAt : Nat
  updatedAt : Nat
deriving DecidableEq

/-- The request body fields the item handlers read; a field missing from
the JSON body reads as undefined. -/
structure Body where
  name : JsValue := .undefined
  summary : JsValue := .undefined
  description : JsValue := .undefined
  image : JsValue := .undefined
  category : JsValue := .undefined
  priority : JsValue := .undefined
  availableDate : JsValue := .undefined
  price : JsValue := .undefined
deriving DecidableEq

/-- itemsCollection.findOne({_id}): first item with the given id. -/
def findItemById (db : List Item) (id : String) : Option Item :=
  db.find? (fun it => it._id == id)

/-- itemsCollection.updateOne({_id}, {$set: ...}): rewrites the first item
with the given id. -/
def updateItemById (db : List Item) (id : String) (f : Item → Item) : List Item :=
  match db with
  | [] => []
  | it :: rest => if it._id == id then f it :: rest else it :: updateItemById rest id f

/-- itemsCollection.deleteOne({_id}): removes the first item with the id. -/
def deleteItemById (db : List Item) (id : String) : List Item :=
  match db with
  | [] => []
  | it :: rest => if it._id == id then rest else it :: deleteItemById rest id

/-- ensureOwnership (src/index.js line 126): the caller id must equal the
userId field or the ownerId field of the item under JS strict equality. -/
def ensureOwnership (item : Option Item) (userId : String) : Bool :=
  match item with
  | none => false
  | some it => it.userId == JsValue.str userId || it.ownerId == JsValue.str userId

/-- mapPublicItem output shape (src/index.js line 106). -/
structure PublicItem where
  id : String
  name : JsValue
  summary : JsValue
  description : JsValue
  image : JsValue
  category : JsValue
  price : JsValue
  priority : JsValue
  availableDate : JsValue
  ownerId : JsValue
  ownerEmail : JsValue
  createdAt : Nat
deriving DecidableEq

/-- mapPublicItem (src/index.js line 106). -/
def mapPublicItem (item : Item) : PublicItem :=
  { id := item._id, name := item.name, summary := item.summary,
    description := item.description, image := item.image,
    category := item.category, price := item.price, priority := item.priority,
    availableDate := item.availableDate, ownerId := item.ownerId,
    ownerEmail := item.ownerEmail, createdAt := item.createdAt }

/-- mapUserItem output shape (src/index.js line 121). -/
structure UserItem where
  pub : PublicItem
  userId : JsValue
deriving DecidableEq

/-- mapUserItem (src/index.js line 121): the public shape plus
item.userId || item.ownerId. -/
def mapUserItem (item : Item) : UserItem :=
  { pub := mapPublicItem item,
    userId := if truthy item.userId then item.userId else item.ownerId }

/-- buildProductDocument (src/index.js line 137); parsed is the validated
price the handler substitutes into the body, now the model timestamp of
new Date(), newId the generated Mongo _id. -/
def buildProductDocument (body : Body) (parsed : ℚ) (userId userEmail : String)
    (now : Nat) (newId : String) : Item :=
  { _id := newId,
    name := body.name, summary := body.summary, description := body.description,
    image := if truthy body.image then body.image else .str DEFAULT_ITEM_IMAGE,
    category := body.category,
    price := .num parsed,
    priority := if truthy body.priority then body.priority else .str "medium",
    availableDate := if truthy body.availableDate then body.availableDate
                     else .str (dateToISOString now),
    ownerId := .str userId, ownerEmail := .str userEmail, userId := .str userId,
    createdAt := now, updatedAt := now }

/-- handleCreateProduct (src/index.js line 156): required-field truthiness
check (price only checked against undefined), price validation, then
insert followed by findOne on the inserted id. -/
def handleCreateProduct (db : List Item) (body : Body) (callerSub callerEmail : String)
    (now : Nat) (newId : String) : List Item × HResult UserItem :=
  if ¬ truthy body.name ∨ ¬ truthy body.summary ∨ ¬ truthy body.description ∨
      ¬ truthy body.category ∨ body.price = .undefined then
    (db, .err 400 "Missing required fields")
  else
    match validatePriceValue body.price with
    | none => (db, .err 400 "Price must be a valid positive number")
    | some parsed =>
      let doc := buildProductDocument body parsed callerSub callerEmail now newId
      let db2 := db ++ [doc]
      match findItemById db2 newId with
      | some created => (db2, .ok 201 (mapUserItem created))
      | none => (db2, .err 500 "Unable to create product")

/-- handleDeleteProduct (src/index.js line 200). -/
def handleDeleteProduct (db : List Item) (id : String) (callerSub : String) :
    List Item × HResult String :=
  if ¬ objectIdIsValid id then
    (db, .err 400 "Invalid product id")
  else
    match findItemById db id with
    | none => (db, .err 404 "Product not found")
    | some item =>
      if ¬ ensureOwnership (some item) callerSub then
        (db, .err 403 "You can only delete your own products")
      else
        (deleteItemById db item._id, .ok 200 "Product deleted")

/-- The $set document handleUpdateProduct accumulates: one optional entry
per recognized field; price carries the parsed number. -/
structure Updates where
  name : Option JsValue := none
  summary : Option JsValue := none
  description : Option JsValue := none
  image : Option JsValue := none
  category : Option JsValue := none
  priority : Option JsValue := none
  availableDate : Option JsValue := none
  price : Option ℚ := none
deriving DecidableEq

/-- The fields.forEach loop (src/index.js line 248): copy each of the seven
recognized fields that is not undefined in the request body. -/
def buildUpdates (body : Body) : Updates :=
  { name := if body.name ≠ .undefined then some body.name else none,
    summary := if body.summary ≠ .undefined then some body.summary else none,
    description := if body.description ≠ .undefined then some body.description else none,
    image := if body.image ≠ .undefined then some body.image else none,
    category := if body.category ≠ .undefined then some body.category else none,
    priority := if body.priority ≠ .undefined then some body.priority else none,
    availableDate := if body.availableDate ≠ .undefined then some body.availableDate else none }

/-- Object.keys(updates).length is zero. -/
def updatesEmpty (u : Updates) : Bool :=
  u.name == none && u.summary == none && u.description == none && u.image == none &&
  u.category == none && u.priority == none && u.availableDate == none && u.price == none

/-- The effect of updateOne({_id}, {$set: updates ∪ {updatedAt: now}}) on a
stored item. -/
def applyUpdates (it : Item) (u : Updates) (now : Nat) : Item :=
  { it with
    name := u.name.getD it.name,
    summary := u.summary.getD it.summary,
    description := u.description.getD it.description,
    image := u.image.getD it.image,
    category := u.category.getD it.category,
    priority := u.priority.getD it.priority,
    availableDate := u.availableDate.getD it.availableDate,
    price := match u.price with | some q => .num q | none => it.price,
    updatedAt := now }

/-- Tail of handleUpdateProduct after the updates document is built: the
no-changes check, the write, and the re-read of the updated item. -/
def finishUpdate (db : List Item) (item : Item) (u : Updates) (now : Nat) :
    List Item × HResult UserItem :=
  if updatesEmpty u then
    (db, .err 400 "No changes provided")
  else
    match findItemById (updateItemById db item._id fun it => applyUpdates it u now)
        item._id with
    | some updated =>
      (updateItemById db item._id fun it => applyUpdates it u now,
       .ok 200 (mapUserItem updated))
    | none =>
      (updateItemById db item._id fun it => applyUpdates it u now,
       .err 500 "Unable to update product")

/-- handleUpdateProduct (src/index.js line 223). -/
def handleUpdateProduct (db : List Item) (id : String) (callerSub : String)
    (body : Body) (now : Nat) : List Item × HResult UserItem :=
  if ¬ objectIdIsValid id then
    (db, .err 400 "Invalid product id")
  else
    match findItemById db id with
    | none => (db, .err 404 "Product not found")
    | some item =>
      if ¬ ensureOwnership (some item) callerSub then
        (db, .err 403 "You can only edit your own products")
      else
        let u := buildUpdates body
        if body.price ≠ .undefined then
          match validatePriceValue body.price with
          | none => (db, .err 400 "Price must be a valid positive number")
          | some parsed => finishUpdate db item { u with price := some parsed } now
        else finishUpdate db item u now

/-- One pattern character against one subject character, under the "i"
option both $regex sites pass: a dot matches anything, any other character
matches up to case. -/
def patCharMatches (p c : Char) : Bool :=
  p == '.' || p.toLower == c.toLower

/-- The pattern matches some opening run of the subject. -/
def matchStart : List Char → List Char → Bool
  | [], _ => true
  | _ :: _, [] => false
  | p :: ps, c :: cs => patCharMatches p c && matchStart ps cs

/-- The pattern matches the whole subject. -/
def matchExact : List Char → List Char → Bool
  | [], [] => true
  | [], _ :: _ => false
  | _ :: _, [] => false
  | p :: ps, c :: cs => patCharMatches p c && matchExact ps cs

/-- The pattern matches a closing run of the subject. -/
def matchEnd (p cs : List Char) : Bool :=
  decide (p.length ≤ cs.length) && matchExact p (cs.drop (cs.length - p.length))

/-- Unanchored search: the pattern matches somewhere inside the subject. -/
def regexSearch (p : List Char) : List Char → Bool
  | [] => matchStart p []
  | c :: cs => matchStart p (c :: cs) || regexSearch p cs

/-- Strips a leading caret anchor. -/
def stripStartAnchor : List Char → Bool × List Char
  | '^' :: ps => (true, ps)
  | ps => (false, ps)

/-- Strips a leading dollar anchor from a reversed pattern, returning the
remainder re-reversed. -/
def stripEndAnchorRev : List Char → Bool × List Char
  | '$' :: rest => (true, rest.reverse)
  | other => (false, other.reverse)

/-- Strips a trailing dollar anchor. -/
def stripEndAnchor (ps : List Char) : Bool × List Char :=
  stripEndAnchorRev ps.reverse

/-- Models the MongoDB $regex operator with the "i" option on the pattern
fragment this server constructs: literal characters, the dot wildcard, and
optional outer anchors.  Both uses in the source pass options: "i". -/
def regexMatchCI (pat subject : String) : Bool :=
  match stripStartAnchor pat.data with
  | (true, p1) =>
    match stripEndAnchor p1 with
    | (true, p2) => matchExact p2 subject.data
    | (false, p2) => matchStart p2 subject.data
  | (false, p1) =>
    match stripEndAnchor p1 with
    | (true, p2) => matchEnd p2 subject.data
    | (false, p2) => regexSearch p2 subject.data

/-- Truthiness of a query-string parameter: present and non-empty. -/
def queryGiven : Option String → Bool
  | none => false
  | some s => s != ""

/-- The name filter {name: {$regex: search, $options: "i"}}: a $regex
condition only matches string-valued fields. -/
def nameMatchesSearch (search : String) (it : Item) : Bool :=
  match it.name with
  | .str n => regexMatchCI search n
  | _ => false

/-- The category filter {category: {$regex: `^category$`, $options: "i"}}. -/
def categoryMatchesFilter (category : String) (it : Item) : Bool :=
  match it.category with
  | .str c => regexMatchCI ("^" ++ category ++ "$") c
  | _ => false

/-- The filters document built by GET /items (src/index.js line 416): each
condition applies only when its query parameter is truthy. -/
def itemMatchesFilters (search category : Option String) (it : Item) : Bool :=
  (if queryGiven search then nameMatchesSearch (search.getD "") it else true) &&
  (if queryGiven category then categoryMatchesFilter (category.getD "") it else true)

/-- Insertion step of the sort({createdAt: -1}) model. -/
def insertDesc (x : Item) : List Item → List Item
  | [] => [x]
  | y :: ys => if y.createdAt ≤ x.createdAt then x :: y :: ys else y :: insertDesc x ys

/-- The cursor sort({createdAt: -1}): newest creation time first. -/
def sortByCreatedDesc : List Item → List Item
  | [] => []
  | x :: xs => insertDesc x (sortByCreatedDesc xs)

/-- GET /items (src/index.js line 414): filter, sort newest-first, map to
the public shape. -/
def listPublicItems (db : List Item) (search category : Option String) :
    List PublicItem :=
  ((sortByCreatedDesc (db.filter (itemMatchesFilters search category))).map mapPublicItem)

/-- Character-wise lowercase of a character list. -/
def lowerL (cs : List Char) : List Char := cs.map Char.toLower

/-- Case-insensitive substring containment, the wording of the spec for the
searchText filter. -/
def containsIgnoreCase (hay nee : String) : Bool :=
  listContains (lowerL hay.data) (lowerL nee.data)

/-- Case-insensitive string equality, the wording of the spec for the
category filter. -/
def eqIgnoreCase (a b : String) : Bool :=
  lowerL a.data == lowerL b.data

/-- Modelled from the spec: the membership condition of the claim for the
public listing — name contains searchText as a case-insensitive substring
when given, category equals the filter ignoring case when given, both
conjoined. -/
def specItemListed (search category : Option String) (it : Item) : Bool :=
  (if queryGiven search then
    (match it.name with
     | .str n => containsIgnoreCase n (search.getD "")
     | _ => false)
   else true) &&
  (if queryGiven category then
    (match it.category with
     | .str c => eqIgnoreCase c (category.getD "")
     | _ => false)
   else true)

/-- A character the modelled regex fragment treats specially, or that PCRE
treats specially although the fragment keeps it literal. -/
def regexMetaChar (c : Char) : Bool :=
  c == '.' || c == '^' || c == '$' || c == '*' || c == '+' || c == '?' ||
  c == '(' || c == ')' || c == '[' || c == ']' || c == '{' || c == '}' ||
  c == '|' || c == '\\'

/-- A string free of regex metacharacters: on such patterns the regex
fragment of this model agrees with PCRE. -/
def literalPattern (s : String) : Bool :=
  s.data.all (fun c => !(regexMetaChar c))

/-- A concrete stored item used by witnesses and the C3 counterexample. -/
def itemAB : Item :=
  { _id := "aaaaaaaaaaaaaaaaaaaaaaaa", name := .str "ab", summary := .str "s",
    description := .str "d", image := .str "i", category := .str "Starter",
    price := .num 1, priority := .str "medium", availableDate := .str "x",
    ownerId := .str "u1", ownerEmail := .str "e@x", userId := .str "u1",
    createdAt := 5, updatedAt := 5 }

/-- itemAB after an update that supplies only the price 2 at time 9. -/
def itemAB2 : Item := { itemAB with price := .num 2, updatedAt := 9 }

/- ------------------------------------------------------------------ -/
/- Theorems.                                                           -/
/- ------------------------------------------------------------------ -/

theorem finishUpdate_ne_forbidden (db : List Item) (item : Item) (u : Updates)
    (now : Nat) (m : String) : (finishUpdate db item u now).2 ≠ .err 403 m := by
  unfold finishUpdate
  split
  · simp
  · cases h : findItemById (updateItemById db item._id fun it => applyUpdates it u now)
      item._id <;> simp [h]

theorem handleUpdateProduct_owned (db : List Item) (id callerSub : String)
    (body : Body) (now : Nat) (item : Item)
    (hvalid : objectIdIsValid id = true)
    (hfind : findItemById db id = some item)
    (hown : ensureOwnership (some item) callerSub = true) :
    handleUpdateProduct db id callerSub body now =
      if body.price = JsValue.undefined then
        finishUpdate db item (buildUpdates body) now
      else
        match validatePriceValue body.price with
        | none => (db, .err 400 "Price must be a valid positive number")
        | some parsed =>
          finishUpdate db item { buildUpdates body with price := some parsed } now := by
  simp [handleUpdateProduct, hvalid, hfind, hown, ite_not]

/-- Claim C1: a caller matching neither owner field gets Forbidden from
both update and delete with the store untouched; a caller matching either
owner field passes the ownership check in both handlers. -/
theorem claim_C1 (db : List Item) (id callerSub : String) (body : Body) (now : Nat)
    (item : Item) (hvalid : objectIdIsValid id = true)
    (hfind : findItemById db id = some item) :
    ((item.userId ≠ .str callerSub ∧ item.ownerId ≠ .str callerSub) →
      handleUpdateProduct db id callerSub body now =
        (db, .err 403 "You can only edit your own products") ∧
      handleDeleteProduct db id callerSub =
        (db, .err 403 "You can only delete your own products")) ∧
    ((item.userId = .str callerSub ∨ item.ownerId = .str callerSub) →
      (handleUpdateProduct db id callerSub body now).2 ≠
        .err 403 "You can only edit your own products" ∧
      (handleDeleteProduct db id callerSub).2 ≠
        .err 403 "You can only delete your own products") := by
  constructor
  · rintro ⟨h1, h2⟩
    have hown : ensureOwnership (some item) callerSub = false := by
      simp [ensureOwnership, h1, h2]
    exact ⟨by simp [handleUpdateProduct, hvalid, hfind, hown],
           by simp [handleDeleteProduct, hvalid, hfind, hown]⟩
  · intro h
    have hown : ensureOwnership (some item) callerSub = true := by
      rcases h with h | h <;> simp [ensureOwnership, h]
    constructor
    · rw [handleUpdateProduct_owned db id callerSub body now item hvalid hfind hown]
      by_cases hpr : body.price = JsValue.undefined
      · rw [if_pos hpr]; exact finishUpdate_ne_forbidden _ _ _ _ _
      · rw [if_neg hpr]
        cases hv : validatePriceValue body.price with
        | none => simp
        | some parsed => exact finishUpdate_ne_forbidden _ _ _ _ _
    · simp [handleDeleteProduct, hvalid, hfind, hown]

theorem claim_C1_witness :
    objectIdIsValid "aaaaaaaaaaaaaaaaaaaaaaaa" = true ∧
    findItemById [itemAB] "aaaaaaaaaaaaaaaaaaaaaaaa" = some itemAB ∧
    itemAB.userId ≠ .str "u2" ∧ itemAB.ownerId ≠ .str "u2" ∧
    handleUpdateProduct [itemAB] "aaaaaaaaaaaaaaaaaaaaaaaa" "u2" {} 9 =
      ([itemAB], .err 403 "You can only edit your own products") := by
  refine ⟨by decide, by decide, by decide, by decide, ?_⟩
  exact ((claim_C1 [itemAB] "aaaaaaaaaaaaaaaaaaaaaaaa" "u2" {} 9 itemAB
    (by decide) (by decide)).1 ⟨by decide, by decide⟩).1

/-- Claim C9: an owner update whose body carries none of the recognized
fields fails with the no-changes ValidationError and leaves the store
unchanged. -/
theorem claim_C9 (db : List Item) (id callerSub : String) (now : Nat) (item : Item)
    (body : Body)
    (hvalid : objectIdIsValid id = true)
    (hfind : findItemById db id = some item)
    (hown : ensureOwnership (some item) callerSub = true)
    (h1 : body.name = .undefined) (h2 : body.summary = .undefined)
    (h3 : body.description = .undefined) (h4 : body.image = .undefined)
    (h5 : body.category = .undefined) (h6 : body.priority = .undefined)
    (h7 : body.availableDate = .undefined) (h8 : body.price = .undefined) :
    handleUpdateProduct db id callerSub body now = (db, .err 400 "No changes provided") := by
  simp [handleUpdateProduct, hvalid, hfind, hown, h8, finishUpdate, updatesEmpty,
    buildUpdates, h1, h2, h3, h4, h5, h6, h7]

theorem claim_C9_witness :
    ensureOwnership (some itemAB) "u1" = true ∧
    handleUpdateProduct [itemAB] "aaaaaaaaaaaaaaaaaaaaaaaa" "u1" {} 9 =
      ([itemAB], .err 400 "No changes provided") :=
  ⟨by decide, claim_C9 [itemAB] "aaaaaaaaaaaaaaaaaaaaaaaa" "u1" 9 itemAB {}
    (by decide) (by decide) (by decide) rfl rfl rfl rfl rfl rfl rfl rfl⟩

theorem validatePriceValue_eq_none_iff (v : JsValue) :
    validatePriceValue v = none ↔ ¬ ∃ q, jsToNumber v = some q ∧ 0 ≤ q := by
  unfold validatePriceValue
  cases h : jsToNumber v with
  | none => simp
  | some q =>
    by_cases hq : q < 0
    · simp [hq, not_le.2 hq]
    · simp [hq, not_lt.1 hq]

theorem handleCreateProduct_found (db : List Item) (doc : Item) :
    findItemById (db ++ [doc]) doc._id =
      some (((findItemById db doc._id).getD doc)) := by
  unfold findItemById
  rw [List.find?_append]
  cases h : db.find? (fun it => it._id == doc._id) with
  | none => simp [List.find?]
  | some x => simp

/-- Claim C7: with all required fields present, create fails with the price
ValidationError exactly when the supplied price does not convert to a
non-negative number, and succeeds with 201 when it does. -/
theorem claim_C7 (db : List Item) (body : Body) (callerSub callerEmail : String)
    (now : Nat) (newId : String)
    (hn : truthy body.name = true) (hs : truthy body.summary = true)
    (hd : truthy body.description = true) (hc : truthy body.category = true)
    (hp : body.price ≠ .undefined) :
    ((handleCreateProduct db body callerSub callerEmail now newId).2 =
        .err 400 "Price must be a valid positive number" ↔
      ¬ ∃ q, jsToNumber body.price = some q ∧ 0 ≤ q) ∧
    (∀ q, jsToNumber body.price = some q → 0 ≤ q →
      ∃ v, (handleCreateProduct db body callerSub callerEmail now newId).2 = .ok 201 v) := by
  constructor
  · rw [← validatePriceValue_eq_none_iff]
    cases hv : validatePriceValue body.price with
    | none => simp [handleCreateProduct, hn, hs, hd, hc, hp, hv]
    | some parsed =>
      simp only [handleCreateProduct, hn, hs, hd, hc, hp, hv]
      have hfound := handleCreateProduct_found db
        (buildProductDocument body parsed callerSub callerEmail now newId)
      have hid : (buildProductDocument body parsed callerSub callerEmail now newId)._id
          = newId := rfl
      rw [hid] at hfound
      simp [hfound]
  · intro q hq hq0
    have hv : validatePriceValue body.price = some q := by
      unfold validatePriceValue
      rw [hq]
      simp [not_lt.2 hq0]
    simp only [handleCreateProduct, hn, hs, hd, hc, hp, hv]
    have hfound := handleCreateProduct_found db
      (buildProductDocument body q callerSub callerEmail now newId)
    have hid : (buildProductDocument body q callerSub callerEmail now newId)._id
        = newId := rfl
    rw [hid] at hfound
    simp [hfound]

theorem claim_C7_witness :
    truthy (JsValue.str "Soup") = true ∧
    ((handleCreateProduct []
        { name := .str "Soup", summary := .str "s", description := .str "d",
          category := .str "Starter", price := .num (-1) } "U" "u@x" 7 "b").2 =
      .err 400 "Price must be a valid positive number" ↔
      ¬ ∃ q, jsToNumber (JsValue.num (-1)) = some q ∧ 0 ≤ q) := by
  refine ⟨by decide, ?_⟩
  exact (claim_C7 []
    { name := .str "Soup", summary := .str "s", description := .str "d",
      category := .str "Starter", price := .num (-1) } "U" "u@x" 7 "b"
    (by decide) (by decide) (by decide) (by decide) (by decide)).1

/-- Claim C8: a successful create appends exactly the built document, whose
owner fields come from the caller identity and whose image, priority and
available date take the documented defaults when not supplied. -/
theorem claim_C8 (db : List Item) (body : Body) (callerSub callerEmail : String)
    (now : Nat) (newId : String) (parsed : ℚ)
    (hn : truthy body.name = true) (hs : truthy body.summary = true)
    (hd : truthy body.description = true) (hc : truthy body.category = true)
    (hp : body.price ≠ .undefined)
    (hv : validatePriceValue body.price = some parsed) :
    (handleCreateProduct db body callerSub callerEmail now newId).1 =
      db ++ [buildProductDocument body parsed callerSub callerEmail now newId] ∧
    (buildProductDocument body parsed callerSub callerEmail now newId).ownerId =
      .str callerSub ∧
    (buildProductDocument body parsed callerSub callerEmail now newId).userId =
      .str callerSub ∧
    (buildProductDocument body parsed callerSub callerEmail now newId).ownerEmail =
      .str callerEmail ∧
    (body.image = .undefined →
      (buildProductDocument body parsed callerSub callerEmail now newId).image =
        .str DEFAULT_ITEM_IMAGE) ∧
    (body.priority = .undefined →
      (buildProductDocument body parsed callerSub callerEmail now newId).priority =
        .str "medium") ∧
    (body.availableDate = .undefined →
      (buildProductDocument body parsed callerSub callerEmail now newId).availableDate =
        .str (dateToISOString now)) := by
  refine ⟨?_, rfl, rfl, rfl, ?_, ?_, ?_⟩
  · simp only [handleCreateProduct, hn, hs, hd, hc, hp, hv]
    rw [if_neg (by simp)]
    split <;> rfl
  · intro h; simp [buildProductDocument, h, truthy]
  · intro h; simp [buildProductDocument, h, truthy]
  · intro h; simp [buildProductDocument, h, truthy]

theorem claim_C8_witness :
    validatePriceValue (JsValue.num 5) = some 5 ∧
    (handleCreateProduct []
        { name := .str "Soup", summary := .str "s", description := .str "d",
          category := .str "Starter", price := .num 5 } "U" "u@x" 7 "b").1 =
      [] ++ [buildProductDocument
        { name := .str "Soup", summary := .str "s", description := .str "d",
          category := .str "Starter", price := .num 5 } 5 "U" "u@x" 7 "b"] ∧
    (buildProductDocument
        { name := .str "Soup", summary := .str "s", description := .str "d",
          category := .str "Starter", price := .num 5 } 5 "U" "u@x" 7 "b").priority =
      .str "medium" := by
  have h := claim_C8 []
    { name := .str "Soup", summary := .str "s", description := .str "d",
      category := .str "Starter", price := .num 5 } "U" "u@x" 7 "b" 5
    (by decide) (by decide) (by decide) (by decide) (by decide) (by decide)
  exact ⟨by decide, h.1, h.2.2.2.2.2.1 rfl⟩

theorem bcryptCompare_empty (plain : String) : bcryptCompare plain "" = false := by
  have hne : ("" : String) ≠ "$2b$10$" ++ plain := by
    intro h
    have hdata : ([] : List Char) = "$2b$10$".data ++ plain.data := by
      have h2 := congrArg String.data h
      rwa [String.data_append] at h2
    have hlen := congrArg List.length hdata
    rw [List.length_nil, List.length_append] at hlen
    have h7 : ("$2b$10$".data).length = 7 := rfl
    rw [h7] at hlen
    omega
  simp [bcryptCompare, bcryptHash]
  exact fun hx => hne hx

/-- Claim C4: login failure for a non-existent email, for a wrong password,
and against an OAuth-only account without a password hash, all produce the
one identical 401 response, leaking nothing about account existence. -/
theorem claim_C4 (db : List User) (email password : String)
    (he : email ≠ "") (hp : password ≠ "") :
    (findUserByEmail db (lowerStr email) = none →
      login db email password = .err 401 "Invalid email or password") ∧
    (∀ u, findUserByEmail db (lowerStr email) = some u →
      bcryptCompare password (orDefaultStr u.password "") = false →
      login db email password = .err 401 "Invalid email or password") ∧
    (∀ u, findUserByEmail db (lowerStr email) = some u → u.password = none →
      login db email password = .err 401 "Invalid email or password") := by
  refine ⟨?_, ?_, ?_⟩
  · intro h; simp [login, he, hp, h]
  · intro u hu hcmp; simp [login, he, hp, hu, hcmp]
  · intro u hu hpw
    have hde : orDefaultStr u.password "" = "" := by simp [orDefaultStr, hpw]
    simp [login, he, hp, hu, hde, bcryptCompare_empty]

/-- An OAuth-only stored user (no password hash), for witnesses. -/
def userOAuth : User :=
  { _id := "u1", name := "N", email := "a@x.com", password := none,
    role := some "user", provider := some "google", createdAt := 0, updatedAt := 0 }

theorem claim_C4_witness :
    findUserByEmail [userOAuth] (lowerStr "A@x.com") = some userOAuth ∧
    login [userOAuth] "A@x.com" "pw" = .err 401 "Invalid email or password" ∧
    login [userOAuth] "nosuch@x.com" "pw" = .err 401 "Invalid email or password" := by
  refine ⟨by decide, ?_, ?_⟩
  · exact (claim_C4 [userOAuth] "A@x.com" "pw" (by decide) (by decide)).2.2 userOAuth
      (by decide) rfl
  · exact (claim_C4 [userOAuth] "nosuch@x.com" "pw" (by decide) (by decide)).1 (by decide)

/-- Claim C5: a registration whose normalized email coincides with the
normalized email of a stored user fails with DuplicateEmail and inserts
nothing; the stored-email-is-normalized hypothesis is the documented store
invariant. -/
theorem claim_C5 (db : List User) (name email password : String) (now : Nat)
    (newId : String) (u : User)
    (hn : name ≠ "") (he : email ≠ "") (hp : password ≠ "")
    (hmem : u ∈ db) (hnorm : lowerStr u.email = u.email)
    (heq : lowerStr email = lowerStr u.email) :
    register db name email password now newId =
      (db, .err 409 "Email is already registered") := by
  have hsome : (db.find? (fun v => v.email == lowerStr email)).isSome := by
    rw [List.find?_isSome]
    refine ⟨u, hmem, ?_⟩
    rw [heq, hnorm]
    simp
  obtain ⟨v, hv⟩ := Option.isSome_iff_exists.mp hsome
  have hfind : findUserByEmail db (lowerStr email) = some v := hv
  simp [register, hn, he, hp, hfind]

theorem claim_C5_witness :
    userOAuth ∈ [userOAuth] ∧ lowerStr "A@X.com" = lowerStr userOAuth.email ∧
    register [userOAuth] "nm" "A@X.com" "pw" 3 "u2" =
      ([userOAuth], .err 409 "Email is already registered") :=
  ⟨by decide, by decide,
    claim_C5 [userOAuth] "nm" "A@X.com" "pw" 3 "u2" userOAuth
      (by decide) (by decide) (by decide) (by decide) (by decide) (by decide)⟩

theorem leadsWith_append (p r : List Char) : leadsWith p (p ++ r) = true := by
  induction p with
  | nil => rfl
  | cons c cs ih => simp [leadsWith, ih]

theorem removeFirstOcc_append (pat r : List Char) (h : pat ≠ []) :
    removeFirstOcc pat (pat ++ r) = r := by
  cases pat with
  | nil => exact absurd rfl h
  | cons c cs =>
    have hc : (c :: cs) ++ r = c :: (cs ++ r) := rfl
    rw [hc]
    unfold removeFirstOcc
    rw [if_pos]
    · show ((c :: cs) ++ r).drop (c :: cs).length = r
      exact List.drop_left _ _
    · show leadsWith (c :: cs) (c :: (cs ++ r)) = true
      exact leadsWith_append (c :: cs) r

theorem removeFirstOcc_not_contains (pat s : List Char)
    (h : listContains s pat = false) : removeFirstOcc pat s = s := by
  induction s with
  | nil => rfl
  | cons c cs ih =>
    unfold listContains at h
    rw [Bool.or_eq_false_iff] at h
    unfold removeFirstOcc
    rw [if_neg (by simp [h.1]), ih h.2]

theorem extractBearerToken_of_not_contains (s : String)
    (hc : listContains s.data "Bearer ".data = false) : extractBearerToken s = s := by
  unfold extractBearerToken
  rw [removeFirstOcc_not_contains _ _ hc]

theorem extractBearerToken_append (r : String) :
    extractBearerToken ("Bearer " ++ r) = r := by
  unfold extractBearerToken
  rw [String.data_append, removeFirstOcc_append _ _ (by decide)]

/-- Claim C10: the guard strips only the first "Bearer " occurrence, leaves
a header without that literal untouched so a bare valid token
authenticates, and rejects exactly the empty extracted token with the
missing-token 401 before any verification. -/
theorem claim_C10 (verify : String → Option TokenClaims) (hdr r : String)
    (c : TokenClaims) :
    (listContains hdr.data "Bearer ".data = false → extractBearerToken hdr = hdr) ∧
    extractBearerToken ("Bearer " ++ r) = r ∧
    (listContains hdr.data "Bearer ".data = false → hdr ≠ "" → verify hdr = some c →
      authGuard verify (some hdr) = .ok c) ∧
    (extractBearerToken hdr = "" → authGuard verify (some hdr) = .missingToken) := by
  refine ⟨extractBearerToken_of_not_contains hdr, extractBearerToken_append r, ?_, ?_⟩
  · intro hc hne hv
    have ht : extractBearerToken hdr = hdr := extractBearerToken_of_not_contains hdr hc
    simp [authGuard, ht, hne, hv]
  · intro ht
    simp [authGuard, ht]

theorem claim_C10_witness :
    listContains ("tok123").data ("Bearer ").data = false ∧
    authGuard (fun t => if t = "tok123" then some ⟨"u1", "a@x.com", "user"⟩ else none)
      (some "tok123") = .ok ⟨"u1", "a@x.com", "user"⟩ := by
  refine ⟨by decide, ?_⟩
  exact (claim_C10 (fun t => if t = "tok123" then some ⟨"u1", "a@x.com", "user"⟩ else none)
    "tok123" "r" ⟨"u1", "a@x.com", "user"⟩).2.2.1 (by decide) (by decide) (by simp)

theorem findItemById_id (db : List Item) (id : String) (itm : Item)
    (h : findItemById db id = some itm) : itm._id = id := by
  have hp := List.find?_some h
  simpa using hp

theorem findItemById_updateItemById (db : List Item) (id : String) (f : Item → Item)
    (hid : ∀ it, (f it)._id = it._id) :
    findItemById (updateItemById db id f) id = (findItemById db id).map f := by
  induction db with
  | nil => rfl
  | cons it rest ih =>
    unfold updateItemById findItemById
    by_cases h : it._id = id
    · rw [if_pos (by simp [h])]
      rw [List.find?_cons_of_pos _ (by simp [hid it, h]),
          List.find?_cons_of_pos _ (by simp [h])]
      rfl
    · rw [if_neg (by simp [h])]
      rw [List.find?_cons_of_neg _ (by simp [h]),
          List.find?_cons_of_neg _ (by simp [h])]
      exact ih

theorem finishUpdate_frame (db : List Item) (itm : Item) (u : Updates) (now : Nat)
    (db2 : List Item) (v : UserItem) (itm2 : Item)
    (hfound : findItemById db itm._id = some itm)
    (hrun : finishUpdate db itm u now = (db2, .ok 200 v))
    (hfind2 : findItemById db2 itm._id = some itm2) :
    itm2 = applyUpdates itm u now := by
  have hupd : findItemById (updateItemById db itm._id fun it => applyUpdates it u now)
      itm._id = some (applyUpdates itm u now) := by
    rw [findItemById_updateItemById db itm._id (fun it => applyUpdates it u now)
      (fun it => rfl), hfound]
    rfl
  unfold finishUpdate at hrun
  by_cases he : updatesEmpty u = true
  · rw [if_pos he] at hrun
    simp [Prod.ext_iff] at hrun
  · rw [if_neg he] at hrun
    rw [hupd] at hrun
    have hdb2 : updateItemById db itm._id (fun it => applyUpdates it u now) = db2 :=
      congrArg Prod.fst hrun
    rw [hdb2] at hupd
    have := hfind2.symm.trans hupd
    exact Option.some.inj this

/-- Claim C2: a successful update changes, besides updatedAt, only the
recognized fields explicitly present in the request: the owner fields and
createdAt are always preserved, and every content field absent from the
body keeps its stored value. -/
theorem claim_C2 (db : List Item) (id callerSub : String) (body : Body) (now : Nat)
    (db2 : List Item) (v : UserItem) (itm itm2 : Item)
    (hrun : handleUpdateProduct db id callerSub body now = (db2, .ok 200 v))
    (hold : findItemById db id = some itm)
    (hnew : findItemById db2 id = some itm2) :
    itm2.ownerId = itm.ownerId ∧ itm2.userId = itm.userId ∧
    itm2.ownerEmail = itm.ownerEmail ∧ itm2.createdAt = itm.createdAt ∧
    itm2.updatedAt = now ∧
    (body.name = .undefined → itm2.name = itm.name) ∧
    (body.summary = .undefined → itm2.summary = itm.summary) ∧
    (body.description = .undefined → itm2.description = itm.description) ∧
    (body.image = .undefined → itm2.image = itm.image) ∧
    (body.category = .undefined → itm2.category = itm.category) ∧
    (body.priority = .undefined → itm2.priority = itm.priority) ∧
    (body.availableDate = .undefined → itm2.availableDate = itm.availableDate) ∧
    (body.price = .undefined → itm2.price = itm.price) := by
  by_cases hval : objectIdIsValid id = true
  swap
  · simp [handleUpdateProduct, hval, Prod.ext_iff] at hrun
  by_cases hown : ensureOwnership (some itm) callerSub = true
  swap
  · simp [handleUpdateProduct, hval, hold, hown, Prod.ext_iff] at hrun
  rw [handleUpdateProduct_owned db id callerSub body now itm hval hold hown] at hrun
  have hid : itm._id = id := findItemById_id db id itm hold
  rw [← hid] at hold hnew
  by_cases hpr : body.price = JsValue.undefined
  · rw [if_pos hpr] at hrun
    have h2 := finishUpdate_frame db itm (buildUpdates body) now db2 v itm2 hold hrun hnew
    subst h2
    refine ⟨rfl, rfl, rfl, rfl, rfl, ?_, ?_, ?_, ?_, ?_, ?_, ?_, ?_⟩
    all_goals intro h
    all_goals simp [applyUpdates, buildUpdates, h]
  · rw [if_neg hpr] at hrun
    cases hv : validatePriceValue body.price with
    | none =>
      rw [hv] at hrun
      simp [Prod.ext_iff] at hrun
    | some parsed =>
      rw [hv] at hrun
      have h2 := finishUpdate_frame db itm { buildUpdates body with price := some parsed }
        now db2 v itm2 hold hrun hnew
      subst h2
      refine ⟨rfl, rfl, rfl, rfl, rfl, ?_, ?_, ?_, ?_, ?_, ?_, ?_, fun h => absurd h hpr⟩
      all_goals intro h
      all_goals simp [applyUpdates, buildUpdates, h]

theorem claim_C2_witness :
    handleUpdateProduct [itemAB] "aaaaaaaaaaaaaaaaaaaaaaaa" "u1" { price := .num 2 } 9 =
      ([itemAB2], .ok 200 (mapUserItem itemAB2)) ∧
    itemAB2.ownerId = itemAB.ownerId ∧ itemAB2.name = itemAB.name ∧
    itemAB2.createdAt = itemAB.createdAt := by
  have h := claim_C2 [itemAB] "aaaaaaaaaaaaaaaaaaaaaaaa" "u1" { price := .num 2 } 9
    [itemAB2] (mapUserItem itemAB2) itemAB itemAB2 (by decide) (by decide) (by decide)
  exact ⟨by decide, h.1, h.2.2.2.2.2.1 rfl, h.2.2.2.1⟩

theorem findUserByEmail_updateUserByEmail (db : List User) (e : String)
    (f : User → User) (hf : ∀ u, (f u).email = e) :
    findUserByEmail (updateUserByEmail db e f) e = (findUserByEmail db e).map f := by
  induction db with
  | nil => rfl
  | cons u rest ih =>
    unfold updateUserByEmail findUserByEmail
    by_cases h : u.email = e
    · rw [if_pos (by simp [h])]
      rw [List.find?_cons_of_pos _ (by simp [hf u]),
          List.find?_cons_of_pos _ (by simp [h])]
      rfl
    · rw [if_neg (by simp [h])]
      rw [List.find?_cons_of_neg _ (by simp [h]),
          List.find?_cons_of_neg _ (by simp [h])]
      exact ih

theorem findUserByEmail_append_single (db : List User) (u : User) (e : String)
    (h : findUserByEmail db e = none) (hu : u.email = e) :
    findUserByEmail (db ++ [u]) e = some u := by
  unfold findUserByEmail at h ⊢
  rw [List.find?_append, h]
  have hone : [u].find? (fun v => v.email == e) = some u :=
    List.find?_cons_of_pos _ (by simp [hu])
  rw [hone]
  rfl

theorem oauthSync_ok (db : List User) (key email name : String) (prov : Option String)
    (t : Nat) (nid : String) (he : email ≠ "") (hn : name ≠ "") :
    ∃ u, (oauthSync db key key email name prov t nid).2 = .ok 200 u ∧
      findUserByEmail (oauthSync db key key email name prov t nid).1
        (lowerStr email) = some u ∧
      u.name = name ∧ u.provider = some (orDefaultStr prov "google") ∧
      u.updatedAt = t ∧
      ((findUserByEmail db (lowerStr email) = none ∧ u._id = nid ∧ u.createdAt = t) ∨
       (∃ u0, findUserByEmail db (lowerStr email) = some u0 ∧ u._id = u0._id ∧
         u.createdAt = u0.createdAt)) := by
  cases h0 : findUserByEmail db (lowerStr email) with
  | some u0 =>
    have hupd := findUserByEmail_updateUserByEmail db (lowerStr email)
      (oauthApplyUser name (lowerStr email) prov t) (fun u => rfl)
    rw [h0] at hupd
    have heq : oauthSync db key key email name prov t nid =
        (updateUserByEmail db (lowerStr email)
          (oauthApplyUser name (lowerStr email) prov t),
         .ok 200 (oauthApplyUser name (lowerStr email) prov t u0)) := by
      simp [oauthSync, he, hn, h0, hupd]
    refine ⟨oauthApplyUser name (lowerStr email) prov t u0, ?_, ?_, rfl, rfl, rfl,
      Or.inr ⟨u0, rfl, rfl, rfl⟩⟩
    · rw [heq]
    · rw [heq]
      exact hupd
  | none =>
    have heq : oauthSync db key key email name prov t nid =
        (db ++ [oauthInsertUser name (lowerStr email) prov t nid],
         .ok 200 (oauthInsertUser name (lowerStr email) prov t nid)) := by
      simp [oauthSync, he, hn, h0]
    refine ⟨oauthInsertUser name (lowerStr email) prov t nid, ?_, ?_, rfl, rfl, rfl,
      Or.inl ⟨rfl, rfl, rfl⟩⟩
    · rw [heq]
    · rw [heq]
      exact findUserByEmail_append_single db _ (lowerStr email) h0 rfl

/-- Claim C6: two oauthSync calls with the same email and correct internal
key both succeed with the same user id; the second call rewrites name and
provider and refreshes updatedAt while keeping the createdAt produced by
the first call. -/
theorem claim_C6 (db : List User) (key email name1 name2 : String)
    (prov1 prov2 : Option String) (t1 t2 : Nat) (id1 id2 : String)
    (he : email ≠ "") (h1 : name1 ≠ "") (h2 : name2 ≠ "") :
    ∃ u1 u2,
      (oauthSync db key key email name1 prov1 t1 id1).2 = .ok 200 u1 ∧
      (oauthSync (oauthSync db key key email name1 prov1 t1 id1).1 key key email
        name2 prov2 t2 id2).2 = .ok 200 u2 ∧
      findUserByEmail (oauthSync (oauthSync db key key email name1 prov1 t1 id1).1
        key key email name2 prov2 t2 id2).1 (lowerStr email) = some u2 ∧
      u2._id = u1._id ∧ u2.name = name2 ∧
      u2.provider = some (orDefaultStr prov2 "google") ∧
      u2.updatedAt = t2 ∧ u2.createdAt = u1.createdAt := by
  obtain ⟨u1, hr1, hf1, hn1, hp1, ht1, hlink1⟩ :=
    oauthSync_ok db key email name1 prov1 t1 id1 he h1
  obtain ⟨u2, hr2, hf2, hn2, hp2, ht2, hlink2⟩ :=
    oauthSync_ok (oauthSync db key key email name1 prov1 t1 id1).1
      key email name2 prov2 t2 id2 he h2
  refine ⟨u1, u2, hr1, hr2, hf2, ?_, hn2, hp2, ht2, ?_⟩
  · rcases hlink2 with ⟨hnone, _, _⟩ | ⟨u0, hsome, hid, _⟩
    · rw [hf1] at hnone
      exact absurd hnone (by simp)
    · rw [hf1] at hsome
      rw [hid, Option.some.inj hsome]
  · rcases hlink2 with ⟨hnone, _, _⟩ | ⟨u0, hsome, _, hcr⟩
    · rw [hf1] at hnone
      exact absurd hnone (by simp)
    · rw [hf1] at hsome
      rw [hcr, Option.some.inj hsome]

theorem claim_C6_witness :
    ∃ u1 u2,
      (oauthSync [] "k" "k" "A@x.com" "N1" none 1 "id1").2 = .ok 200 u1 ∧
      (oauthSync (oauthSync [] "k" "k" "A@x.com" "N1" none 1 "id1").1 "k" "k"
        "A@x.com" "N2" (some "github") 2 "id2").2 = .ok 200 u2 ∧
      findUserByEmail (oauthSync (oauthSync [] "k" "k" "A@x.com" "N1" none 1 "id1").1
        "k" "k" "A@x.com" "N2" (some "github") 2 "id2").1 (lowerStr "A@x.com") = some u2 ∧
      u2._id = u1._id ∧ u2.name = "N2" ∧
      u2.provider = some (orDefaultStr (some "github") "google") ∧
      u2.updatedAt = 2 ∧ u2.createdAt = u1.createdAt :=
  claim_C6 [] "k" "A@x.com" "N1" "N2" none (some "github") 1 2 "id1" "id2"
    (by decide) (by decide) (by decide)

theorem patCharMatches_of_not_meta (p c : Char) (h : regexMetaChar p = false) :
    patCharMatches p c = (p.toLower == c.toLower) := by
  simp only [regexMetaChar, Bool.or_eq_false_iff] at h
  simp [patCharMatches, h.1]

theorem matchStart_literal (p : List Char) (hp : ∀ c ∈ p, regexMetaChar c = false) :
    ∀ s, matchStart p s = leadsWith (lowerL p) (lowerL s) := by
  induction p with
  | nil => intro s; cases s <;> rfl
  | cons q qs ih =>
    intro s
    cases s with
    | nil => rfl
    | cons c cs =>
      have hq : regexMetaChar q = false := hp q (by simp)
      show (patCharMatches q c && matchStart qs cs) =
        leadsWith (q.toLower :: lowerL qs) (c.toLower :: lowerL cs)
      rw [patCharMatches_of_not_meta q c hq,
        ih (fun d hd => hp d (by simp [hd])) cs]
      rfl

theorem matchExact_literal (p : List Char) (hp : ∀ c ∈ p, regexMetaChar c = false) :
    ∀ s, matchExact p s = (lowerL p == lowerL s) := by
  induction p with
  | nil => intro s; cases s <;> rfl
  | cons q qs ih =>
    intro s
    cases s with
    | nil => rfl
    | cons c cs =>
      have hq : regexMetaChar q = false := hp q (by simp)
      show (patCharMatches q c && matchExact qs cs) =
        ((q.toLower :: lowerL qs) == (c.toLower :: lowerL cs))
      rw [patCharMatches_of_not_meta q c hq,
        ih (fun d hd => hp d (by simp [hd])) cs]
      rfl

theorem regexSearch_literal (p : List Char) (hp : ∀ c ∈ p, regexMetaChar c = false) :
    ∀ s, regexSearch p s = listContains (lowerL s) (lowerL p) := by
  intro s
  induction s with
  | nil =>
    show matchStart p [] = leadsWith (lowerL p) []
    rw [matchStart_literal p hp []]
    rfl
  | cons c cs ih =>
    show (matchStart p (c :: cs) || regexSearch p cs) =
      listContains (c.toLower :: lowerL cs) (lowerL p)
    rw [matchStart_literal p hp (c :: cs), ih]
    rfl

theorem stripStartAnchor_literal (cs : List Char)
    (h : ∀ c ∈ cs, regexMetaChar c = false) : stripStartAnchor cs = (false, cs) := by
  cases cs with
  | nil => rfl
  | cons c rest =>
    have hc : regexMetaChar c = false := h c (by simp)
    have hne : c ≠ '^' := by
      intro hq
      rw [hq] at hc
      exact absurd hc (by decide)
    unfold stripStartAnchor
    split
    · rename_i ps heq
      exact absurd (List.cons.inj heq).1 hne
    · rfl

theorem stripEndAnchor_literal (cs : List Char)
    (h : ∀ c ∈ cs, regexMetaChar c = false) : stripEndAnchor cs = (false, cs) := by
  unfold stripEndAnchor stripEndAnchorRev
  split
  · rename_i rest heq
    have hmem : '$' ∈ cs := by
      have h2 : '$' ∈ cs.reverse := by rw [heq]; simp
      simpa using h2
    exact absurd (h '$' hmem) (by decide)
  · rw [List.reverse_reverse]

theorem stripEndAnchor_dollar (ps : List Char) :
    stripEndAnchor (ps ++ ['$']) = (true, ps) := by
  unfold stripEndAnchor
  rw [show (ps ++ ['$']).reverse = '$' :: ps.reverse by simp]
  show (true, ps.reverse.reverse) = (true, ps)
  rw [List.reverse_reverse]

theorem listCharBeqComm (a b : List Char) : (a == b) = (b == a) := by
  by_cases h : a = b
  · rw [h]
  · rw [beq_eq_false_iff_ne.mpr h, beq_eq_false_iff_ne.mpr (Ne.symm h)]

theorem literalPattern_chars (s : String) (hp : literalPattern s = true) :
    ∀ c ∈ s.data, regexMetaChar c = false := by
  intro c hc
  have h2 := (List.all_eq_true.mp hp) c hc
  simpa using h2

theorem regexMatchCI_literal (pat subject : String) (hp : literalPattern pat = true) :
    regexMatchCI pat subject = containsIgnoreCase subject pat := by
  have hall := literalPattern_chars pat hp
  unfold regexMatchCI
  rw [stripStartAnchor_literal pat.data hall]
  show (match stripEndAnchor pat.data with
        | (true, p2) => matchEnd p2 subject.data
        | (false, p2) => regexSearch p2 subject.data) = containsIgnoreCase subject pat
  rw [stripEndAnchor_literal pat.data hall]
  show regexSearch pat.data subject.data = containsIgnoreCase subject pat
  rw [regexSearch_literal pat.data hall subject.data]
  rfl

theorem regexMatchCI_anchored (cat subject : String) (hp : literalPattern cat = true) :
    regexMatchCI ("^" ++ cat ++ "$") subject = eqIgnoreCase subject cat := by
  have hall := literalPattern_chars cat hp
  have hdata : ("^" ++ cat ++ "$").data = '^' :: (cat.data ++ ['$']) := by
    rw [String.data_append, String.data_append]
    rfl
  unfold regexMatchCI
  rw [hdata]
  show (match stripEndAnchor (cat.data ++ ['$']) with
        | (true, p2) => matchExact p2 subject.data
        | (false, p2) => matchStart p2 subject.data) = eqIgnoreCase subject cat
  rw [stripEndAnchor_dollar]
  show matchExact cat.data subject.data = eqIgnoreCase subject cat
  rw [matchExact_literal cat.data hall subject.data]
  unfold eqIgnoreCase
  exact listCharBeqComm _ _

theorem itemMatchesFilters_eq_spec (search category : Option String)
    (hs : ∀ s, search = some s → literalPattern s = true)
    (hc : ∀ c, category = some c → literalPattern c = true) (it : Item) :
    itemMatchesFilters search category it = specItemListed search category it := by
  unfold itemMatchesFilters specItemListed
  congr 1
  · cases search with
    | none => rfl
    | some s =>
      by_cases hse : s = ""
      · simp [queryGiven, hse]
      · have hq : queryGiven (some s) = true := by simp [queryGiven, hse]
        rw [hq]
        show nameMatchesSearch s it = _
        unfold nameMatchesSearch
        cases it.name with
        | str n => exact regexMatchCI_literal s n (hs s rfl)
        | undefined => rfl
        | null => rfl
        | boolean b => rfl
        | num q => rfl
  · cases category with
    | none => rfl
    | some ctg =>
      by_cases hce : ctg = ""
      · simp [queryGiven, hce]
      · have hq : queryGiven (some ctg) = true := by simp [queryGiven, hce]
        rw [hq]
        show categoryMatchesFilter ctg it = _
        unfold categoryMatchesFilter
        cases it.category with
        | str cf => exact regexMatchCI_anchored ctg cf (hc ctg rfl)
        | undefined => rfl
        | null => rfl
        | boolean b => rfl
        | num q => rfl

theorem insertDesc_perm (x : Item) (l : List Item) :
    List.Perm (insertDesc x l) (x :: l) := by
  induction l with
  | nil => exact List.Perm.refl _
  | cons y ys ih =>
    unfold insertDesc
    by_cases h : y.createdAt ≤ x.createdAt
    · rw [if_pos h]
    · rw [if_neg h]
      exact (ih.cons y).trans (List.Perm.swap x y ys)

theorem insertDesc_pairwise (x : Item) (l : List Item)
    (h : List.Pairwise (fun a b : Item => b.createdAt ≤ a.createdAt) l) :
    List.Pairwise (fun a b : Item => b.createdAt ≤ a.createdAt) (insertDesc x l) := by
  induction l with
  | nil => simp [insertDesc]
  | cons y ys ih =>
    rcases List.pairwise_cons.mp h with ⟨hy, hys⟩
    unfold insertDesc
    by_cases hle : y.createdAt ≤ x.createdAt
    · rw [if_pos hle]
      refine List.pairwise_cons.mpr ⟨?_, h⟩
      intro z hz
      rcases List.mem_cons.mp hz with rfl | hz2
      · exact hle
      · exact le_trans (hy z hz2) hle
    · rw [if_neg hle]
      refine List.pairwise_cons.mpr ⟨?_, ih hys⟩
      intro z hz
      have hz2 : z ∈ x :: ys := (insertDesc_perm x ys).mem_iff.mp hz
      rcases List.mem_cons.mp hz2 with rfl | hz3
      · exact le_of_not_le hle
      · exact hy z hz3

theorem sortByCreatedDesc_perm (l : List Item) :
    List.Perm (sortByCreatedDesc l) l := by
  induction l with
  | nil => exact List.Perm.refl _
  | cons x xs ih =>
    exact (insertDesc_perm x (sortByCreatedDesc xs)).trans (ih.cons x)

theorem sortByCreatedDesc_pairwise (l : List Item) :
    List.Pairwise (fun a b : Item => b.createdAt ≤ a.createdAt)
      (sortByCreatedDesc l) := by
  induction l with
  | nil => exact List.Pairwise.nil
  | cons x xs ih => exact insertDesc_pairwise x _ ih

/-- Claim C3, amended: for searchText and category filters free of regex
metacharacters the public listing is exactly the case-insensitive
substring / case-insensitive equality filter of the store (as a
permutation of the filtered items), sorted newest-first by creation time;
in general the two query parameters are interpreted as case-insensitive
regular expression patterns, not as literal strings. -/
theorem claim_C3 (db : List Item) (search category : Option String)
    (hs : ∀ s, search = some s → literalPattern s = true)
    (hc : ∀ c, category = some c → literalPattern c = true) :
    List.Perm (listPublicItems db search category)
      ((db.filter (specItemListed search category)).map mapPublicItem) ∧
    List.Pairwise (fun a b : PublicItem => b.createdAt ≤ a.createdAt)
      (listPublicItems db search category) := by
  have hfeq : db.filter (itemMatchesFilters search category) =
      db.filter (specItemListed search category) := by
    apply List.filter_congr
    intro a _
    exact itemMatchesFilters_eq_spec search category hs hc a
  constructor
  · unfold listPublicItems
    rw [hfeq]
    exact (sortByCreatedDesc_perm _).map mapPublicItem
  · unfold listPublicItems
    exact (List.pairwise_map).mpr
      (sortByCreatedDesc_pairwise (db.filter (itemMatchesFilters search category)))

/-- Claim C3 counterexample: with searchText "." the listing returns the
stored item named "ab" although "ab" does not contain "." as a substring
in any letter case: the search text is used as a regular expression
pattern, so the claimed substring semantics fails as stated. -/
theorem claim_C3_counterexample :
    listPublicItems [itemAB] (some ".") none = [mapPublicItem itemAB] ∧
    containsIgnoreCase "ab" "." = false := by
  exact ⟨by decide, by decide⟩

theorem claim_C3_witness :
    literalPattern "b" = true ∧
    List.Perm (listPublicItems [itemAB] (some "b") none)
      (([itemAB].filter (specItemListed (some "b") none)).map mapPublicItem) ∧
    List.Pairwise (fun a b : PublicItem => b.createdAt ≤ a.createdAt)
      (listPublicItems [itemAB] (some "b") none) := by
  refine ⟨by decide, ?_, ?_⟩
  · exact (claim_C3 [itemAB] (some "b") none
      (by intro s h; cases h; decide) (fun c h => Option.noConfusion h)).1
  · exact (claim_C3 [itemAB] (some "b") none
      (by intro s h; cases h; decide) (fun c h => Option.noConfusion h)).2
